import Mathlib

/-!
Shallow embedding of the data-normalization, filtering and aggregation logic
of `data_viz.py` (LUMOPlay usage dashboard), together with theorems settling
the specification claims about it.

Python strings are embedded as Lean `String` with operations defined on the
underlying character list; pandas tables are lists of records; numeric
columns are embedded as rationals.
-/

namespace LumoViz

/-- Embeds Python `s.startswith(pat)` restricted to the character list:
`prefMatch pat s` is true when `pat` is an initial segment of `s`. -/
def prefMatch : List Char → List Char → Bool
  | [], _ => true
  | _ :: _, [] => false
  | p :: ps, c :: cs => p = c && prefMatch ps cs

/-- Python `name.startswith(pat)`. -/
def pyStartsWith (s pat : String) : Bool := prefMatch pat.data s.data

/-- Python slicing `s[n:]`. -/
def pyDrop (s : String) (n : Nat) : String := String.mk (s.data.drop n)

/-- Python `s.replace('_', ' ')` (single-character pattern, so a character map). -/
def underscoreToSpace (s : String) : String :=
  String.mk (s.data.map (fun c => if c = '_' then ' ' else c))

/-- The `abbrev_map` dictionary of `clean_device_name` (insertion order kept,
as Python dict iteration preserves it). -/
def abbrev_map : List (String × String) := [("BL", "Bioness Left"), ("BR", "Bioness Right")]

/-- Embeds `clean_device_name` from `data_viz.py` lines 28-40: the first
abbreviation whose prefix matches with a strictly longer name wins and the
suffix is appended after a space; otherwise underscores become spaces. -/
def clean_device_name (name : String) : String :=
  match abbrev_map.find? (fun p => pyStartsWith name p.1 && decide (p.1.length < name.length)) with
  | some p => p.2 ++ " " ++ pyDrop name p.1.length
  | none => underscoreToSpace name

/-- Restates the canonicalization rule in the words of the specification
(nested if-then-else over the two literal cases), to be compared with the
loop-based `clean_device_name` taken from the source. -/
def clean_device_spec (name : String) : String :=
  if pyStartsWith name "BL" && decide (2 < name.length) then
    "Bioness Left" ++ " " ++ pyDrop name 2
  else if pyStartsWith name "BR" && decide (2 < name.length) then
    "Bioness Right" ++ " " ++ pyDrop name 2
  else
    underscoreToSpace name

/-- Python code-point lexicographic order on character lists, the order used
when Python (and hence numpy/pandas sorting of object arrays) compares
strings. -/
def lexLe : List Char → List Char → Bool
  | [], _ => true
  | _ :: _, [] => false
  | a :: as, b :: bs => a.toNat < b.toNat || (a.toNat = b.toNat && lexLe as bs)

/-- Python string comparison `a <= b`. -/
def strLeb (a b : String) : Bool := lexLe a.data b.data

/-- the same comparison as a relation, for use with `List.insertionSort`. -/
def strRel (a b : String) : Prop := strLeb a b = true

instance : DecidableRel strRel := fun a b => by
  unfold strRel
  infer_instance

/-- Calendar date of a session (the value of the `date` column, date part). -/
structure Date where
  year : Nat
  month : Nat
  day : Nat
deriving DecidableEq

/-- Value of the parsed `date` column: a calendar date plus a time of day.
The filter mask compares via `.dt.date`, i.e. the date part only. -/
structure DateTime where
  date : Date
  secondOfDay : Nat
deriving DecidableEq

/-- Python `datetime.date` comparison: lexicographic on (year, month, day). -/
def dateLe (a b : Date) : Bool :=
  a.year < b.year ||
    (a.year = b.year && (a.month < b.month || (a.month = b.month && a.day ≤ b.day)))

def leapYear (y : Nat) : Bool := y % 4 == 0 && (y % 100 != 0 || y % 400 == 0)

def daysInMonth (y m : Nat) : Nat :=
  if m = 2 then (if leapYear y then 29 else 28)
  else if m = 4 ∨ m = 6 ∨ m = 9 ∨ m = 11 then 30
  else 31

/-- pandas `DateOffset(years=n)`: increment the year and clamp the day to the
length of the target month (Feb 29 falls back to Feb 28 in a non-leap year). -/
def addYears (n : Nat) (d : Date) : Date :=
  { year := d.year + n, month := d.month, day := min d.day (daysInMonth (d.year + n) d.month) }

/-- strftime %B: the full English month name. -/
def monthName : Nat → String
  | 1 => "January"
  | 2 => "February"
  | 3 => "March"
  | 4 => "April"
  | 5 => "May"
  | 6 => "June"
  | 7 => "July"
  | 8 => "August"
  | 9 => "September"
  | 10 => "October"
  | 11 => "November"
  | 12 => "December"
  | _ => ""

/-- One parsed input row before normalization (date already parsed by
`pd.to_datetime`). -/
structure RawRow where
  date : DateTime
  game : String
  device : String
  area : String
  duration_minutes : ℚ
deriving DecidableEq

/-- One row of the normalized table produced by `load_data`. -/
structure Row where
  date : DateTime
  game : String
  device : String
  area : String
  duration_minutes : ℚ
  month : String
  month_num : Nat
deriving DecidableEq

/-- Embeds `load_data` lines 17-42 on one parsed row: shift the date one year
forward, derive the month name and month number from the shifted date, and
canonicalize the device name. -/
def normalizeRow (r : RawRow) : Row :=
  let d : DateTime := { r.date with date := addYears 1 r.date.date }
  { date := d
    game := r.game
    device := clean_device_name r.device
    area := r.area
    duration_minutes := r.duration_minutes
    month := monthName d.date.month
    month_num := d.date.month }

/-- the row-wise part of `load_data` over the whole table. -/
def load_data (rows : List RawRow) : List Row := rows.map normalizeRow

/-- User-selected filter constraints: inclusive date range plus categorical
allow-lists (the multiselect widget values). -/
structure Constraints where
  start_date : Date
  end_date : Date
  games : List String
  devices : List String
  areas : List String

/-- Embeds the boolean mask of lines 92-98: date within [start, end] at day
granularity, and each categorical column `isin` its selected list. -/
def rowMask (c : Constraints) (r : Row) : Bool :=
  dateLe c.start_date r.date.date && dateLe r.date.date c.end_date &&
    c.games.contains r.game && c.devices.contains r.device && c.areas.contains r.area

/-- line 99: `filtered_df = df[mask]`, keeping the original row order. -/
def filtered_df (df : List Row) (c : Constraints) : List Row := df.filter (rowMask c)

/-- line 105. -/
def total_sessions (t : List Row) : Nat := t.length

/-- line 106. -/
def total_duration (t : List Row) : ℚ := (t.map Row.duration_minutes).sum

/-- line 107, pandas `Series.mean`: NaN (embedded as `none`) on the empty
column, otherwise the sum divided by the length. -/
def avg_duration (t : List Row) : Option ℚ :=
  if t.length = 0 then none else some (total_duration t / t.length)

/-- the maximal multiplicity of a value in a column, as computed inside
pandas `Series.mode` by value counting. -/
def maxFreq (l : List String) : Nat :=
  (l.dedup.map (fun v => l.count v)).foldr Nat.max 0

/-- pandas `Series.mode`: the distinct values of maximal multiplicity, sorted
ascending by Python string order. -/
def modeList (l : List String) : List String :=
  List.insertionSort strRel (l.dedup.filter (fun v => l.count v = maxFreq l))

/-- lines 110-115 for the game column: `mode()[0]` when the table is
non-empty, "N/A" otherwise. The mode of a non-empty column is non-empty, so
the `headD` default is unreachable. -/
def top_game (t : List Row) : String :=
  if t.isEmpty then "N/A" else (modeList (t.map Row.game)).headD ""

/-- lines 110-115 for the device column. -/
def top_device (t : List Row) : String :=
  if t.isEmpty then "N/A" else (modeList (t.map Row.device)).headD ""

/-- the tie-break rule as the specification words it: the first value in row
order among those attaining the maximal frequency. -/
def firstModeInRowOrder (l : List String) : String :=
  (l.find? (fun v => l.count v = maxFreq l)).getD "N/A"

/-- one-decimal fixed-point rendering used by the Avg Session KPI of line 121
on a real (non-NaN) mean, idealized over rationals. -/
def fmt1 (q : ℚ) : String :=
  let t : ℤ := round (q * 10)
  let s := if t < 0 then "-" else ""
  s ++ toString (t.natAbs / 10) ++ "." ++ toString (t.natAbs % 10)

/-- the string shown by the Avg Session KPI of line 121: Python formats the
float NaN produced by an empty mean as "nan". -/
def kpiAvgString (t : List Row) : String :=
  match avg_duration t with
  | none => "nan"
  | some q => fmt1 q

/-- the groupby key of line 134. -/
def monthKey (r : Row) : Nat × String := (r.month_num, r.month)

/-- order in which pandas groupby emits its (month_num, month) keys:
lexicographic on the pair. -/
def keyLe (a b : Nat × String) : Prop :=
  a.1 < b.1 ∨ (a.1 = b.1 ∧ strRel a.2 b.2)

instance : DecidableRel keyLe := fun a b => by
  unfold keyLe
  exact instDecidableOr

/-- the `sort_values('month_num')` order of line 135. -/
def byNumLe (a b : (Nat × String) × ℚ) : Prop := a.1.1 ≤ b.1.1

instance : DecidableRel byNumLe := fun a b => by
  unfold byNumLe
  infer_instance

/-- the rows of a (month_num, month) group. -/
def groupRows (t : List Row) (k : Nat × String) : List Row :=
  t.filter (fun r => monthKey r = k)

/-- mean `duration_minutes` of one group. -/
def groupMeanDuration (t : List Row) (k : Nat × String) : ℚ :=
  ((groupRows t k).map Row.duration_minutes).sum / (groupRows t k).length

/-- lines 134-135: group by (month_num, month) (pandas emits sorted keys),
take the mean duration per group, then sort by month_num. -/
def monthly_dur (t : List Row) : List ((Nat × String) × ℚ) :=
  let keys := List.insertionSort keyLe ((t.map monthKey).dedup)
  List.insertionSort byNumLe (keys.map (fun k => (k, groupMeanDuration t k)))

/-- descending-count order of pandas `value_counts`. -/
def countGe (a b : String × Nat) : Prop := b.2 ≤ a.2

instance : DecidableRel countGe := fun a b => by
  unfold countGe
  infer_instance

/-- pandas `value_counts`: the distinct values of a column with their
multiplicities, ordered by descending count (the order among equal counts is
not relied upon by any claim). -/
def value_counts (l : List String) : List (String × Nat) :=
  List.insertionSort countGe (l.dedup.map (fun v => (v, l.count v)))

/-- lines 148-149. -/
def game_counts (t : List Row) : List (String × Nat) := value_counts (t.map Row.game)

/-- lines 156-157. -/
def device_counts (t : List Row) : List (String × Nat) := value_counts (t.map Row.device)

/-- Python `str.lower` restricted to ASCII letters (the only characters the
claims exercise). -/
def pyToLower (c : Char) : Char :=
  if 65 ≤ c.toNat ∧ c.toNat ≤ 90 then Char.ofNat (c.toNat + 32) else c

/-- Python `str.strip`: drop leading and trailing whitespace. -/
def pyStrip (s : String) : String :=
  String.mk (((s.data.dropWhile (fun c => c.toNat ≤ 32)).reverse.dropWhile
    (fun c => c.toNat ≤ 32)).reverse)

/-- line 14: lowercase and strip every column name. -/
def normalizeColName (s : String) : String := pyStrip (String.mk (s.data.map pyToLower))

/-- line 75. -/
def required_cols : List String := ["date", "duration_minutes"]

/-- Everything the dashboard computes from the filtered table (KPIs of lines
104-123 and the chart aggregates of lines 134-157). -/
structure Summary where
  total_sessions : Nat
  total_duration : ℚ
  avg_duration : Option ℚ
  top_game : String
  top_device : String
  monthly_dur : List ((Nat × String) × ℚ)
  game_counts : List (String × Nat)
  device_counts : List (String × Nat)
deriving DecidableEq

/-- the aggregation stage as one function of the filtered table. -/
def summarize (t : List Row) : Summary :=
  { total_sessions := total_sessions t
    total_duration := total_duration t
    avg_duration := avg_duration t
    top_game := top_game t
    top_device := top_device t
    monthly_dur := monthly_dur t
    game_counts := game_counts t
    device_counts := device_counts t }

/-- Embeds the script body lines 71-160: normalize the column names, then the
required-column check of lines 74-78 either halts with the blocking error
message (`st.stop`, so no filter, KPI or chart value is computed) or the
render proceeds to filter and summarize. -/
def renderDashboard (rawCols : List String) (df : List Row) (c : Constraints) :
    Except String Summary :=
  let cols := rawCols.map normalizeColName
  if required_cols.all (fun col => cols.contains col) then
    Except.ok (summarize (filtered_df df c))
  else
    Except.error "Uploaded file is missing one of these required columns"

/-- convenience constructor for concrete example rows. -/
def mkRow (g d a : String) (dur : ℚ) (mn : Nat) (mo : String) : Row :=
  { date := { date := { year := 2025, month := mn, day := 1 }, secondOfDay := 0 }
    game := g
    device := d
    area := a
    duration_minutes := dur
    month := mo
    month_num := mn }

/-- games A,B,A,B in row order: the tie example named by the specification. -/
def exABAB : List Row :=
  [mkRow "A" "d" "ar" 10 1 "January", mkRow "B" "d" "ar" 10 1 "January",
   mkRow "A" "d" "ar" 10 1 "January", mkRow "B" "d" "ar" 10 1 "January"]

/-- games B,A,B,A in row order: separates the first-encountered tie-break from
the sorted one. -/
def exBABA : List Row :=
  [mkRow "B" "d" "ar" 10 1 "January", mkRow "A" "d" "ar" 10 1 "January",
   mkRow "B" "d" "ar" 10 1 "January", mkRow "A" "d" "ar" 10 1 "January"]

/-- rows in December, January and March, in that row order. -/
def exMon : List Row :=
  [mkRow "g" "d" "ar" 10 12 "December", mkRow "g" "d" "ar" 20 1 "January",
   mkRow "g" "d" "ar" 30 3 "March"]

/-- a raw row dated 2024-03-10. -/
def exRaw310 : RawRow :=
  { date := { date := { year := 2024, month := 3, day := 10 }, secondOfDay := 0 }
    game := "g"
    device := "BL1"
    area := "ar"
    duration_minutes := 5 }

/-- a one-row table for filter witnesses. -/
def dfEx : List Row := [mkRow "g" "d" "ar" 10 1 "January"]

/-- constraints with every allow-list populated. -/
def cFull : Constraints :=
  { start_date := ⟨2025, 1, 1⟩, end_date := ⟨2025, 12, 31⟩
    games := ["g"], devices := ["d"], areas := ["ar"] }

/-- constraints whose game allow-list is empty. -/
def cNoGames : Constraints :=
  { start_date := ⟨2025, 1, 1⟩, end_date := ⟨2025, 12, 31⟩
    games := [], devices := ["d"], areas := ["ar"] }

/-- constraints whose device allow-list is empty. -/
def cNoDevices : Constraints :=
  { start_date := ⟨2025, 1, 1⟩, end_date := ⟨2025, 12, 31⟩
    games := ["g"], devices := [], areas := ["ar"] }

/-- constraints whose area allow-list is empty. -/
def cNoAreas : Constraints :=
  { start_date := ⟨2025, 1, 1⟩, end_date := ⟨2025, 12, 31⟩
    games := ["g"], devices := ["d"], areas := [] }

/-!  ## Theorems -/

theorem prefMatch_iff (p s : List Char) : prefMatch p s = true ↔ ∃ t, s = p ++ t := by
  induction p generalizing s with
  | nil => simp [prefMatch]
  | cons a ps ih =>
    cases s with
    | nil => simp [prefMatch]
    | cons c cs =>
      simp only [prefMatch, Bool.and_eq_true, decide_eq_true_eq, ih, List.cons_append]
      constructor
      · rintro ⟨rfl, t, rfl⟩
        exact ⟨t, rfl⟩
      · rintro ⟨t, h⟩
        cases h
        exact ⟨rfl, t, rfl⟩

theorem lexLe_refl : ∀ l : List Char, lexLe l l = true
  | [] => rfl
  | a :: as => by simp [lexLe, lexLe_refl as]

theorem strRel_refl (s : String) : strRel s s := lexLe_refl s.data

theorem lexLe_total (l₁ l₂ : List Char) : lexLe l₁ l₂ = true ∨ lexLe l₂ l₁ = true := by
  induction l₁ generalizing l₂ with
  | nil => exact Or.inl rfl
  | cons a as ih =>
    cases l₂ with
    | nil => exact Or.inr rfl
    | cons b bs =>
      rcases Nat.lt_trichotomy a.toNat b.toNat with h | h | h
      · exact Or.inl (by simp [lexLe, h])
      · rcases ih bs with h2 | h2
        · exact Or.inl (by simp [lexLe, h, h2])
        · exact Or.inr (by simp [lexLe, h.symm, h2])
      · exact Or.inr (by simp [lexLe, h])

theorem lexLe_trans : ∀ {l₁ l₂ l₃ : List Char},
    lexLe l₁ l₂ = true → lexLe l₂ l₃ = true → lexLe l₁ l₃ = true := by
  intro l₁
  induction l₁ with
  | nil => intro l₂ l₃ _ _; rfl
  | cons a as ih =>
    intro l₂ l₃ h12 h23
    cases l₂ with
    | nil => simp [lexLe] at h12
    | cons b bs =>
      cases l₃ with
      | nil => simp [lexLe] at h23
      | cons c cs =>
        simp only [lexLe, Bool.or_eq_true, Bool.and_eq_true, decide_eq_true_eq] at h12 h23 ⊢
        rcases h12 with h1 | ⟨e1, r1⟩
        · rcases h23 with h2 | ⟨e2, r2⟩
          · exact Or.inl (Nat.lt_trans h1 h2)
          · exact Or.inl (e2 ▸ h1)
        · rcases h23 with h2 | ⟨e2, r2⟩
          · exact Or.inl (e1 ▸ h2)
          · exact Or.inr ⟨e1.trans e2, ih r1 r2⟩

instance : IsTotal String strRel := ⟨fun a b => lexLe_total a.data b.data⟩

instance : IsTrans String strRel := ⟨fun _ _ _ => lexLe_trans⟩

theorem foldr_max_mem : ∀ l : List Nat, l ≠ [] → l.foldr Nat.max 0 ∈ l := by
  intro l
  induction l with
  | nil => intro h; exact absurd rfl h
  | cons a t ih =>
    intro _
    cases t with
    | nil => simp
    | cons b u =>
      rcases Nat.le_total ((b :: u).foldr Nat.max 0) a with h | h
      · have e : (a :: b :: u).foldr Nat.max 0 = a := by
          show Nat.max a ((b :: u).foldr Nat.max 0) = a
          exact Nat.max_eq_left h
        rw [e]
        exact List.mem_cons_self a _
      · have e : (a :: b :: u).foldr Nat.max 0 = (b :: u).foldr Nat.max 0 := by
          show Nat.max a ((b :: u).foldr Nat.max 0) = _
          exact Nat.max_eq_right h
        rw [e]
        exact List.mem_cons_of_mem _ (ih (by simp))

theorem le_foldr_max (l : List Nat) : ∀ x ∈ l, x ≤ l.foldr Nat.max 0 := by
  induction l with
  | nil => simp
  | cons a t ih =>
    intro x hx
    rcases List.mem_cons.mp hx with rfl | hx
    · exact Nat.le_max_left _ _
    · exact Nat.le_trans (ih x hx) (Nat.le_max_right _ _)

theorem count_le_maxFreq (l : List String) (v : String) : l.count v ≤ maxFreq l := by
  by_cases hv : v ∈ l
  · exact le_foldr_max _ _ (List.mem_map_of_mem _ (List.mem_dedup.mpr hv))
  · simp [List.count_eq_zero.mpr hv]

theorem maxFreq_attained (l : List String) (h : l ≠ []) :
    ∃ v, v ∈ l.dedup ∧ l.count v = maxFreq l := by
  have hd : l.dedup ≠ [] := by simpa using h
  have hmem := foldr_max_mem (l.dedup.map (fun w => l.count w)) (by simpa using hd)
  rcases List.mem_map.mp hmem with ⟨v, hv, he⟩
  exact ⟨v, hv, he⟩

theorem mem_modeList (l : List String) (v : String) :
    v ∈ modeList l ↔ v ∈ l.dedup ∧ l.count v = maxFreq l := by
  unfold modeList
  rw [List.mem_insertionSort]
  simp [List.mem_filter]

theorem modeList_ne_nil (l : List String) (h : l ≠ []) : modeList l ≠ [] := by
  rcases maxFreq_attained l h with ⟨v, hv, he⟩
  intro hnil
  have hm : v ∈ modeList l := (mem_modeList l v).mpr ⟨hv, he⟩
  rw [hnil] at hm
  exact absurd hm (List.not_mem_nil v)

theorem modeList_sorted (l : List String) : List.Pairwise strRel (modeList l) :=
  List.sorted_insertionSort strRel _

theorem modeHead_spec (l : List String) (h : l ≠ []) :
    ((modeList l).headD "" ∈ l ∧ l.count ((modeList l).headD "") = maxFreq l) ∧
      (∀ x, l.count x ≤ l.count ((modeList l).headD "")) ∧
      (∀ x ∈ l, l.count x = maxFreq l → strRel ((modeList l).headD "") x) := by
  obtain ⟨m, ms, hm⟩ : ∃ m ms, modeList l = m :: ms := by
    cases hml : modeList l with
    | nil => exact absurd hml (modeList_ne_nil l h)
    | cons m ms => exact ⟨m, ms, rfl⟩
  have hmem : m ∈ modeList l := by rw [hm]; exact List.mem_cons_self m ms
  have hspec := (mem_modeList l m).mp hmem
  have hcnt : l.count m = maxFreq l := hspec.2
  have hml : m ∈ l := List.mem_dedup.mp hspec.1
  rw [hm]
  refine ⟨⟨hml, hcnt⟩, ?_, ?_⟩
  · intro x
    calc l.count x ≤ maxFreq l := count_le_maxFreq l x
    _ = l.count m := hcnt.symm
  · intro x hx hcx
    have hxm : x ∈ modeList l := (mem_modeList l x).mpr ⟨List.mem_dedup.mpr hx, hcx⟩
    rw [hm] at hxm
    rcases List.mem_cons.mp hxm with rfl | hxs
    · exact strRel_refl x
    · have hp := modeList_sorted l
      rw [hm] at hp
      exact (List.pairwise_cons.mp hp).1 x hxs

theorem clean_device_eq_spec (name : String) :
    clean_device_name name = clean_device_spec name := by
  have e1 : ("BL" : String).length = 2 := rfl
  have e2 : ("BR" : String).length = 2 := rfl
  unfold clean_device_name clean_device_spec abbrev_map
  simp only [List.find?, e1, e2]
  by_cases h1 : (pyStartsWith name "BL" && decide (2 < name.length)) = true
  · simp [h1, e1]
  · by_cases h2 : (pyStartsWith name "BR" && decide (2 < name.length)) = true
    · simp [h1, h2, e1, e2]
    · simp [h1, h2]

/-- Claim C3: a device string starting with "BL" plus at least one further
character canonicalizes to "Bioness Left " plus the suffix, likewise "BR" to
"Bioness Right ", and every other string (bare "BL"/"BR" included) has its
underscores replaced by spaces; with the four instances BL1, BR2, BL and
Bioness_Left. -/
theorem C3_clean_device_canonicalization :
    (∀ name : String, clean_device_name name = clean_device_spec name) ∧
    clean_device_name "BL1" = "Bioness Left 1" ∧
    clean_device_name "BR2" = "Bioness Right 2" ∧
    clean_device_name "BL" = "BL" ∧
    clean_device_name "Bioness_Left" = "Bioness Left" :=
  ⟨clean_device_eq_spec, by decide, by decide, by decide, by decide⟩

/-- Claim C10: when the abbreviation rule fires, the suffix is appended
verbatim (no underscore replacement), so every character of the suffix,
underscores included, survives into the output; in particular BL_1 maps to
"Bioness Left _1", which still contains an underscore. -/
theorem C10_suffix_kept_verbatim :
    (∀ name : String, pyStartsWith name "BL" = true → 2 < name.length →
      clean_device_name name = "Bioness Left" ++ " " ++ pyDrop name 2 ∧
      ∀ c ∈ (pyDrop name 2).data, c ∈ (clean_device_name name).data) ∧
    (∀ name : String, pyStartsWith name "BR" = true → 2 < name.length →
      clean_device_name name = "Bioness Right" ++ " " ++ pyDrop name 2 ∧
      ∀ c ∈ (pyDrop name 2).data, c ∈ (clean_device_name name).data) ∧
    clean_device_name "BL_1" = "Bioness Left _1" ∧
    '_' ∈ (clean_device_name "BL_1").data := by
  refine ⟨?_, ?_, by decide, by decide⟩
  · intro name hs hl
    have he : clean_device_name name = "Bioness Left" ++ " " ++ pyDrop name 2 := by
      rw [clean_device_eq_spec]
      unfold clean_device_spec
      simp [hs, hl]
    refine ⟨he, ?_⟩
    intro c hc
    rw [he]
    have hd : ("Bioness Left" ++ " " ++ pyDrop name 2).data
        = ("Bioness Left" ++ " ").data ++ (pyDrop name 2).data := rfl
    rw [hd]
    exact List.mem_append_right _ hc
  · intro name hs hl
    obtain ⟨t, ht⟩ := (prefMatch_iff "BR".data name.data).mp hs
    have hBL : pyStartsWith name "BL" = false := by
      unfold pyStartsWith
      rw [ht]
      show prefMatch ['B', 'L'] (['B', 'R'] ++ t) = false
      simp [prefMatch]
    have he : clean_device_name name = "Bioness Right" ++ " " ++ pyDrop name 2 := by
      rw [clean_device_eq_spec]
      unfold clean_device_spec
      simp [hs, hl, hBL]
    refine ⟨he, ?_⟩
    intro c hc
    rw [he]
    have hd : ("Bioness Right" ++ " " ++ pyDrop name 2).data
        = ("Bioness Right" ++ " ").data ++ (pyDrop name 2).data := rfl
    rw [hd]
    exact List.mem_append_right _ hc

theorem C10_suffix_kept_verbatim_witness :
    clean_device_name "BL_1" = "Bioness Left" ++ " " ++ pyDrop "BL_1" 2 ∧
    '_' ∈ (clean_device_name "BL_1").data :=
  ⟨(C10_suffix_kept_verbatim.1 "BL_1" (by decide) (by decide)).1,
   (C10_suffix_kept_verbatim.1 "BL_1" (by decide) (by decide)).2 '_' (by decide)⟩

/-- Claim C4: for every parsed row the loader shifts the date forward by one
calendar year (year incremented, month kept, day clamped to the target month,
time of day kept) and derives month and month_num from the shifted date;
2024-03-10 normalizes to 2025-03-10 with month March and month_num 3. -/
theorem C4_date_shift_one_year :
    (∀ r : RawRow,
      (normalizeRow r).date.date = addYears 1 r.date.date ∧
      (normalizeRow r).date.secondOfDay = r.date.secondOfDay ∧
      (addYears 1 r.date.date).year = r.date.date.year + 1 ∧
      (addYears 1 r.date.date).month = r.date.date.month ∧
      (addYears 1 r.date.date).day = min r.date.date.day
        (daysInMonth (r.date.date.year + 1) r.date.date.month) ∧
      (normalizeRow r).month_num = (addYears 1 r.date.date).month ∧
      (normalizeRow r).month = monthName (addYears 1 r.date.date).month ∧
      (1 ≤ r.date.date.month → r.date.date.month ≤ 12 →
        1 ≤ (normalizeRow r).month_num ∧ (normalizeRow r).month_num ≤ 12)) ∧
    (normalizeRow exRaw310).date.date = { year := 2025, month := 3, day := 10 } ∧
    (normalizeRow exRaw310).month = "March" ∧
    (normalizeRow exRaw310).month_num = 3 := by
  refine ⟨?_, by decide, by decide, by decide⟩
  intro r
  refine ⟨rfl, rfl, rfl, rfl, rfl, rfl, rfl, ?_⟩
  intro h1 h2
  exact ⟨h1, h2⟩

theorem C4_date_shift_one_year_witness :
    1 ≤ (normalizeRow exRaw310).month_num ∧ (normalizeRow exRaw310).month_num ≤ 12 :=
  (C4_date_shift_one_year.1 exRaw310).2.2.2.2.2.2.2 (by decide) (by decide)

/-- Claim C5: a row is in the filter output iff its date (day part) lies in
the inclusive range and its game, device and area are each in the selected
lists; an empty selected list for any field gives an empty output. -/
theorem C5_filter_characterization :
    (∀ (df : List Row) (c : Constraints) (r : Row),
      r ∈ filtered_df df c ↔
        r ∈ df ∧ dateLe c.start_date r.date.date = true ∧
          dateLe r.date.date c.end_date = true ∧
          r.game ∈ c.games ∧ r.device ∈ c.devices ∧ r.area ∈ c.areas) ∧
    (∀ (df : List Row) (c : Constraints), c.games = [] → filtered_df df c = []) ∧
    (∀ (df : List Row) (c : Constraints), c.devices = [] → filtered_df df c = []) ∧
    (∀ (df : List Row) (c : Constraints), c.areas = [] → filtered_df df c = []) := by
  refine ⟨?_, ?_, ?_, ?_⟩
  · intro df c r
    simp [filtered_df, List.mem_filter, rowMask, and_assoc]
  · intro df c h
    simp [filtered_df, List.filter_eq_nil_iff, rowMask, h]
  · intro df c h
    simp [filtered_df, List.filter_eq_nil_iff, rowMask, h]
  · intro df c h
    simp [filtered_df, List.filter_eq_nil_iff, rowMask, h]

theorem C5_filter_characterization_witness :
    filtered_df dfEx cNoGames = [] ∧ filtered_df dfEx cNoDevices = [] ∧
    filtered_df dfEx cNoAreas = [] :=
  ⟨C5_filter_characterization.2.1 dfEx cNoGames rfl,
   C5_filter_characterization.2.2.1 dfEx cNoDevices rfl,
   C5_filter_characterization.2.2.2 dfEx cNoAreas rfl⟩

/-- Claim C6: filtering is a fixed point: filtering an already-filtered table
with the same constraints returns it unchanged, rows and order alike. -/
theorem C6_filter_idempotent :
    ∀ (df : List Row) (c : Constraints), filtered_df (filtered_df df c) c = filtered_df df c := by
  intro df c
  unfold filtered_df
  rw [List.filter_filter]
  simp

/-- Claim C1 counterexample: for games B,A,B,A in row order the
first-encountered tied maximum is "B", but the code (pandas mode, whose tied
values come out sorted) returns "A". -/
theorem C1_first_encountered_refuted :
    firstModeInRowOrder (exBABA.map Row.game) = "B" ∧
    top_game exBABA = "A" ∧
    top_game exBABA ≠ firstModeInRowOrder (exBABA.map Row.game) := by decide

/-- Claim C1 (amended): for a non-empty table, top_game (and top_device) is a
value of the column of maximal frequency, and among tied maxima it is the
least in Python string order (pandas mode sorts the tied values), not the
first encountered; for games A,B,A,B in row order it is still "A". -/
theorem C1_top_mode_least :
    (∀ t : List Row, t ≠ [] →
      (top_game t ∈ t.map Row.game ∧
        (t.map Row.game).count (top_game t) = maxFreq (t.map Row.game) ∧
        (∀ x, (t.map Row.game).count x ≤ (t.map Row.game).count (top_game t)) ∧
        (∀ x ∈ t.map Row.game,
          (t.map Row.game).count x = (t.map Row.game).count (top_game t) →
            strRel (top_game t) x)) ∧
      (top_device t ∈ t.map Row.device ∧
        (t.map Row.device).count (top_device t) = maxFreq (t.map Row.device) ∧
        (∀ x, (t.map Row.device).count x ≤ (t.map Row.device).count (top_device t)) ∧
        (∀ x ∈ t.map Row.device,
          (t.map Row.device).count x = (t.map Row.device).count (top_device t) →
            strRel (top_device t) x))) ∧
    top_game exABAB = "A" := by
  refine ⟨?_, by decide⟩
  intro t ht
  have hne : t.isEmpty = false := by
    cases t with
    | nil => exact absurd rfl ht
    | cons a l => rfl
  constructor
  · have hmap : t.map Row.game ≠ [] := by simpa using ht
    have hg : top_game t = (modeList (t.map Row.game)).headD "" := by
      simp [top_game, hne]
    rw [hg]
    obtain ⟨⟨hmem, hcnt⟩, hle, htie⟩ := modeHead_spec (t.map Row.game) hmap
    exact ⟨hmem, hcnt, hle, fun x hx hcx => htie x hx (hcx.trans hcnt)⟩
  · have hmap : t.map Row.device ≠ [] := by simpa using ht
    have hg : top_device t = (modeList (t.map Row.device)).headD "" := by
      simp [top_device, hne]
    rw [hg]
    obtain ⟨⟨hmem, hcnt⟩, hle, htie⟩ := modeHead_spec (t.map Row.device) hmap
    exact ⟨hmem, hcnt, hle, fun x hx hcx => htie x hx (hcx.trans hcnt)⟩

theorem C1_top_mode_least_witness :
    strRel (top_game exABAB) "B" :=
  ((C1_top_mode_least.1 exABAB (by decide)).1.2.2.2) "B" (by decide) (by decide)

/-- Claim C2 counterexample: on the empty table the mean is NaN (embedded
none) and the Avg Session KPI renders the string "nan", not "N/A". -/
theorem C2_avg_na_refuted :
    avg_duration ([] : List Row) = none ∧ kpiAvgString [] = "nan" ∧ "nan" ≠ "N/A" :=
  ⟨rfl, rfl, by decide⟩

/-- Claim C2 (amended): on the empty table total_sessions is 0 and
top_game/top_device are "N/A", while the mean is undefined NaN (none),
surfaced by the KPI formatter as "nan" rather than "N/A". -/
theorem C2_empty_aggregates :
    total_sessions ([] : List Row) = 0 ∧
    avg_duration ([] : List Row) = none ∧
    kpiAvgString ([] : List Row) = "nan" ∧
    top_game ([] : List Row) = "N/A" ∧
    top_device ([] : List Row) = "N/A" := by decide

instance : IsTotal ((Nat × String) × ℚ) byNumLe :=
  ⟨fun a b => Nat.le_total a.1.1 b.1.1⟩

instance : IsTrans ((Nat × String) × ℚ) byNumLe :=
  ⟨fun _ _ _ h1 h2 => Nat.le_trans h1 h2⟩

/-- Claim C7: monthly_avg_duration groups the table by (month_num, month),
takes the mean duration per group, and returns the groups ascending by
month_num; rows from December, January and March come out January, March,
December. -/
theorem C7_monthly_ordering :
    (∀ t : List Row,
      List.Pairwise byNumLe (monthly_dur t) ∧
      List.Perm ((monthly_dur t).map Prod.fst) ((t.map monthKey).dedup) ∧
      (∀ i : Fin (monthly_dur t).length,
        ((monthly_dur t).get i).2 = groupMeanDuration t ((monthly_dur t).get i).1)) ∧
    (monthly_dur exMon).map (fun e => e.1.2) = ["January", "March", "December"] := by
  refine ⟨?_, by decide⟩
  intro t
  refine ⟨List.sorted_insertionSort byNumLe _, ?_, ?_⟩
  · unfold monthly_dur
    have h1 := (List.perm_insertionSort byNumLe
      ((List.insertionSort keyLe ((t.map monthKey).dedup)).map
        (fun k => (k, groupMeanDuration t k)))).map Prod.fst
    have h2 : ((List.insertionSort keyLe ((t.map monthKey).dedup)).map
        (fun k => (k, groupMeanDuration t k))).map Prod.fst
        = List.insertionSort keyLe ((t.map monthKey).dedup) := by
      rw [List.map_map]
      exact List.map_id _
    rw [h2] at h1
    exact h1.trans (List.perm_insertionSort keyLe _)
  · intro i
    have hmem : (monthly_dur t).get i ∈ monthly_dur t := List.get_mem _ i.1 i.2
    have hall : ∀ e ∈ monthly_dur t, e.2 = groupMeanDuration t e.1 := by
      intro e he
      unfold monthly_dur at he
      rw [List.mem_insertionSort] at he
      rcases List.mem_map.mp he with ⟨k, _, rfl⟩
      rfl
    exact hall _ hmem

/-- Claim C8: when the normalized column names lack date or duration_minutes
the render stops with the blocking error message and no filter, KPI or chart
value is computed. -/
theorem C8_required_columns (rawCols : List String) (df : List Row) (c : Constraints)
    (h : "date" ∉ rawCols.map normalizeColName ∨
      "duration_minutes" ∉ rawCols.map normalizeColName) :
    renderDashboard rawCols df c =
      Except.error "Uploaded file is missing one of these required columns" := by
  have hc : ((rawCols.map normalizeColName).contains "date") = false ∨
      ((rawCols.map normalizeColName).contains "duration_minutes") = false := by
    rcases h with h | h
    · exact Or.inl (by simpa using h)
    · exact Or.inr (by simpa using h)
  have hall : (required_cols.all
      fun col => ((rawCols.map normalizeColName).contains col)) = false := by
    show ((rawCols.map normalizeColName).contains "date" &&
      ((rawCols.map normalizeColName).contains "duration_minutes" && true)) = false
    rcases hc with h2 | h2 <;> rw [h2] <;> simp
  unfold renderDashboard
  simp only [hall]
  rfl

theorem C8_required_columns_witness :
    renderDashboard ["Game", "Device"] [] cFull =
      Except.error "Uploaded file is missing one of these required columns" :=
  C8_required_columns ["Game", "Device"] [] cFull (Or.inl (by decide))

theorem sum_value_counts (l : List String) :
    ((value_counts l).map Prod.snd).sum = l.length := by
  unfold value_counts
  rw [((List.perm_insertionSort countGe
    (l.dedup.map (fun v => (v, l.count v)))).map Prod.snd).sum_eq, List.map_map]
  exact List.sum_map_count_dedup_eq_length l

/-- Claim C9: the per-game counts of the game share sum to total_sessions,
and likewise the per-device counts: every row lands in exactly one group of
each breakdown. -/
theorem C9_counts_sum_to_total :
    ∀ t : List Row,
      ((game_counts t).map Prod.snd).sum = total_sessions t ∧
      ((device_counts t).map Prod.snd).sum = total_sessions t := by
  intro t
  constructor
  · show ((value_counts (t.map Row.game)).map Prod.snd).sum = _
    rw [sum_value_counts]
    simp [total_sessions]
  · show ((value_counts (t.map Row.device)).map Prod.snd).sum = _
    rw [sum_value_counts]
    simp [total_sessions]

end LumoViz
